import Mathlib

/-! vctui: the key dispatcher of `MainUI` (src/pkg/vctui/ui.go)

A shallow embedding of the input-capture closure installed by `MainUI` with
`tree.SetInputCapture`.  The closure is a Go `switch` on the pressed key; it
reads the current tree node, talks to the remote vCenter through a VM handle,
suspends the terminal application to run sub-dialogs and mutates the root node
and the package variable `searchString`.

* Mutable state (`searchString`, the root node, the captured slice `v`) is
  passed explicitly as a `Session`.
* Everything the closure calls but does not define (remote calls, sub-dialogs,
  `buildTree`, `searchVMS`, `VMInventory`) is a field of `World`: the answer the
  collaborator gives during this dispatch.  Theorems quantify over all worlds.
* Every observable call is appended to a trace of `Event`s, in program order.
* A Go run-time panic (failed type assertion, nil dereference) is the result
  `Ret.panicked`, with the trace up to the panic.
-/

namespace Vctui

/-! ## Data model -/

/-- Go `error` values, identified by their message. -/
abbrev Err := String

/-- Handle `*object.VirtualMachine` of the remote client.  The dispatcher reads
only `Name()`; the other fields are the inventory data that the tree builder
shows (see `buildTree`). -/
structure VirtualMachine where
  name : String
  template : Bool
  disks : List String
  macs : List String
  snapshots : List String
  deriving DecidableEq, Repr

/-- Device list `object.VirtualDeviceList` returned by `vm.Device(ctx)`, kept
symbolic (device names). -/
abbrev VirtualDeviceList := List String

/-- Payload stored in a tree node with `SetReference`.  The struct is declared
outside ui.go; ui.go reads exactly these three fields (`r.objectType`,
`r.objectDetails`, `r.vm`).  `vm = none` is the nil pointer. -/
structure reference where
  objectType : String
  objectDetails : String
  vm : Option VirtualMachine
  deriving DecidableEq, Repr

/-- Node `*tview.TreeNode`: text, expanded flag, reference (`none` is the nil
interface value) and the ordered children. -/
inductive TreeNode where
  | mk (text : String) (expanded : Bool) (ref : Option reference)
      (children : List TreeNode)
  deriving Repr

namespace TreeNode

def GetText : TreeNode → String
  | mk t _ _ _ => t

def IsExpanded : TreeNode → Bool
  | mk _ e _ _ => e

def GetReference : TreeNode → Option reference
  | mk _ _ r _ => r

def GetChildren : TreeNode → List TreeNode
  | mk _ _ _ c => c

def SetText : TreeNode → String → TreeNode
  | mk _ e r c, t => mk t e r c

def ClearChildren : TreeNode → TreeNode
  | mk t e r _ => mk t e r []

def SetChildren : TreeNode → List TreeNode → TreeNode
  | mk t e r _, c => mk t e r c

end TreeNode

mutual
/-- Number of nodes of a subtree. -/
def nodeSize : TreeNode → Nat
  | .mk _ _ _ c => 1 + listSize c
/-- Number of nodes of a forest. -/
def listSize : List TreeNode → Nat
  | [] => 0
  | n :: ns => nodeSize n + listSize ns
end

/-! ## `TreeNode.Walk` of tview

The callback's result is, in tview's words, "whether traversal should continue
with the traversed node's child nodes (true) or not recurse any deeper
(false)": `false` prunes the children of that one node, the loop goes on with
the rest of the stack. -/

/-- Result of one callback invocation during a walk: the new accumulator and
the returned boolean, or a panic raised inside the callback. -/
inductive WalkStep (σ : Type) where
  | next (s : σ) (descend : Bool)
  | panic (s : σ)

/-- Result of a whole walk. `outOfFuel` is an artefact of the embedding, see
`walkLoop_fuel`. -/
inductive WalkResult (σ : Type) where
  | done (s : σ)
  | panicked (s : σ)
  | outOfFuel
  deriving DecidableEq, Repr

/-- The loop of `Walk`:
`for len(nodes) > 0 { node := pop; if !callback(node) { continue }; push the
children in reverse order }`.  The stack is a list whose head is the top, so
pushing the children in reverse order puts them in front, first child on top. -/
def walkLoop {σ : Type} (callback : TreeNode → σ → WalkStep σ) :
    Nat → List TreeNode → σ → WalkResult σ
  | _, [], s => .done s
  | 0, _ :: _, _ => .outOfFuel
  | fuel + 1, node :: nodes, s =>
    match callback node s with
    | .panic s1 => .panicked s1
    | .next s1 false => walkLoop callback fuel nodes s1
    | .next s1 true => walkLoop callback fuel (node.GetChildren ++ nodes) s1

/-- Walk of the subtree of n: `nodes := []*TreeNode{n}` and the loop. Each
iteration removes one node for good, so `nodeSize n` iterations suffice. -/
def TreeNode.Walk {σ : Type} (n : TreeNode) (callback : TreeNode → σ → WalkStep σ)
    (s : σ) : WalkResult σ :=
  walkLoop callback (nodeSize n) [n] s

/-! ## Keys, power actions, events -/

/-- Value of `event.Key()`: the seven keys of the switch and everything else. -/
inductive Key where
  | KeyCtrlD | KeyCtrlF | KeyCtrlI | KeyCtrlN | KeyCtrlP | KeyCtrlR | KeyCtrlS
  | other (code : Nat)
  deriving DecidableEq, Repr

/-- The `int` returned by `powerui()`, compared by the inner switch with the
eight constants `powerOn` ... `diskPowerOn` (declared outside ui.go; Go rejects
duplicate constant cases, so they are pairwise distinct). `other` is any value
that matches no case. -/
inductive PowerAction where
  | powerOn | powerOff | guestPowerOff | guestReboot | suspend | reset
  | netPowerOn | diskPowerOn
  | other (code : Nat)
  deriving DecidableEq, Repr

/-- A call on the remote control plane. `SetBootOptions vm devices order`
stands for `vm.SetBootOptions(ctx, &BootOptions{BootOrder:
devices.BootOrder(order)})`. -/
inductive RemoteCall where
  | Destroy (vm : VirtualMachine)
  | PowerOn (vm : VirtualMachine)
  | PowerOff (vm : VirtualMachine)
  | ShutdownGuest (vm : VirtualMachine)
  | RebootGuest (vm : VirtualMachine)
  | Suspend (vm : VirtualMachine)
  | Reset (vm : VirtualMachine)
  | Device (vm : VirtualMachine)
  | SetBootOptions (vm : VirtualMachine) (devices : VirtualDeviceList)
      (order : List String)
  | RevertToSnapshot (vm : VirtualMachine) (snapshot : String)
      (suppressPowerOff : Bool)
  | VMInventory (dcName : String) (force : Bool)
  deriving DecidableEq, Repr

/-- The function literal handed to `application.Suspend`. -/
inductive Dialog where
  | SearchUI (v : List VirtualMachine)
  | deployOnVM (address hostname : String)
  | newVMFromTemplate (template : String)
  | newVM (dcName : String)
  | powerui
  | errorUI (err : Err)
  deriving DecidableEq, Repr

/-- Closure given to `time.AfterFunc` by the `netPowerOn` case: it captures the
VM handle and the device list read earlier in the same dispatch. -/
structure BootRevert where
  vm : VirtualMachine
  devices : VirtualDeviceList
  deriving DecidableEq, Repr

/-- Observable actions of one dispatch, in program order. -/
inductive Event where
  | suspend (d : Dialog)
  | uiBugFix
  | errorUI (err : Err)
  | remote (c : RemoteCall)
  | afterFunc (seconds : Nat) (f : BootRevert)
  deriving DecidableEq, Repr

/-- Answers of the collaborators during one dispatch. An `Option Err` is the
returned `error` (`none` is nil); a pair is a Go multi-value return, both
components as returned. -/
structure World where
  buildTree : List VirtualMachine → TreeNode
  searchVMS : String → List VirtualMachine → List VirtualMachine × Option Err
  SearchUI : List VirtualMachine → String × List VirtualMachine
  VMInventory : String → Bool → List VirtualMachine × Option Err
  powerui : PowerAction
  Destroy : VirtualMachine → Option Err
  PowerOn : VirtualMachine → Option Err
  PowerOff : VirtualMachine → Option Err
  ShutdownGuest : VirtualMachine → Option Err
  RebootGuest : VirtualMachine → Option Err
  Suspend : VirtualMachine → Option Err
  Reset : VirtualMachine → Option Err
  Device : VirtualMachine → VirtualDeviceList × Option Err
  SetBootOptions : VirtualMachine → VirtualDeviceList → List String → Option Err
  RevertToSnapshot : VirtualMachine → String → Bool → Option Err

/-- State the closure can change: the package variable `searchString`, the
root node, and the slice `v` captured from the parameters of `MainUI`. -/
structure Session where
  searchString : String
  root : TreeNode
  v : List VirtualMachine

/-- What the closure did: `handled` is `return nil`, `unhandled` is
`return event`, `panicked` is a run-time panic. `outOfFuel` only mirrors
`WalkResult.outOfFuel`. -/
inductive Ret where
  | handled | unhandled | panicked | outOfFuel
  deriving DecidableEq, Repr

structure Outcome where
  state : Session
  trace : List Event
  ret : Ret

/-! ## The dispatcher -/

/-- The pattern `if err != nil { errorUI(err) }` of the power cases. -/
def reportError : Option Err → List Event
  | none => []
  | some err => [.errorUI err]

/-- The pattern `if err != nil { application.Suspend(func() { errorUI(err) });
uiBugFix() }` of the refresh and snapshot cases. -/
def reportErrorSuspended : Option Err → List Event
  | none => []
  | some err => [.suspend (.errorUI err), .uiBugFix]

/-- Body of the function given to `time.AfterFunc` (ui.go 192-203), run in
the world w that exists when the timer fires. -/
def BootRevert.run (w : World) (f : BootRevert) : List Event :=
  [.remote (.SetBootOptions f.vm f.devices ["disk", "ethernet"])]
    ++ reportError (w.SetBootOptions f.vm f.devices ["disk", "ethernet"])

/-- The inner `switch action` of the power case (ui.go 134-225) for a
reference whose vm is set. -/
def powerSwitch (w : World) (vm : VirtualMachine) : PowerAction → List Event
  | .powerOn => [.remote (.PowerOn vm)] ++ reportError (w.PowerOn vm)
  | .powerOff => [.remote (.PowerOff vm)] ++ reportError (w.PowerOff vm)
  | .guestPowerOff => [.remote (.ShutdownGuest vm)] ++ reportError (w.ShutdownGuest vm)
  | .guestReboot => [.remote (.RebootGuest vm)] ++ reportError (w.RebootGuest vm)
  | .suspend => [.remote (.Suspend vm)] ++ reportError (w.Suspend vm)
  | .reset => [.remote (.Reset vm)] ++ reportError (w.Reset vm)
  | .netPowerOn =>
    let bootOrder := ["ethernet", "disk"]
    let (devices, err) := w.Device vm
    [.remote (.Device vm)] ++ reportError err
      ++ [.remote (.SetBootOptions vm devices bootOrder)]
      ++ reportError (w.SetBootOptions vm devices bootOrder)
      ++ [.remote (.PowerOn vm)] ++ reportError (w.PowerOn vm)
      ++ [.afterFunc 3 ⟨vm, devices⟩]
  | .diskPowerOn =>
    let bootOrder := ["disk", "ethernet"]
    let (devices, err) := w.Device vm
    [.remote (.Device vm)] ++ reportError err
      ++ [.remote (.SetBootOptions vm devices bootOrder)]
      ++ reportError (w.SetBootOptions vm devices bootOrder)
      ++ [.remote (.PowerOn vm)] ++ reportError (w.PowerOn vm)
  | .other _ => []

/-- Callback of the walk in the install case (ui.go 94-107). The accumulator
is the trace. `r.vm.Name()` on a nil vm is a nil dereference, raised before the
application is suspended. -/
def deployCallback (node : TreeNode) (tr : List Event) : WalkStep (List Event) :=
  match node.GetReference with
  | none => .next tr false
  | some r =>
    if r.objectType = "MAC" then
      match r.vm with
      | none => .panic tr
      | some vm => .next (tr ++ [.suspend (.deployOnVM r.objectDetails vm.name)]) false
    else .next tr true

/-- The closure passed to `tree.SetInputCapture` (ui.go 63-267), for the
session s, the node cur returned by `tree.GetCurrentNode()` and the pressed
key.  `GetReference().(reference)` on a nil reference is a failed type
assertion, hence a panic. -/
def inputCapture (w : World) (dcName : String) (s : Session) (cur : TreeNode) :
    Key → Outcome
  | .KeyCtrlD =>
    match cur.GetReference with
    | none => ⟨s, [], .panicked⟩
    | some r =>
      match r.vm with
      | some vm => ⟨s, [.remote (.Destroy vm)], .handled⟩
      | none => ⟨s, [], .handled⟩
  | .KeyCtrlF =>
    let (filter, subset) := w.SearchUI s.v
    let newRoot := w.buildTree subset
    let root1 :=
      if filter = "" then s.root.SetText "VMware vCenter"
      else s.root.SetText ("VMware vCenter (filter: " ++ filter ++ ")")
    let root2 := root1.ClearChildren.SetChildren newRoot.GetChildren
    ⟨⟨filter, root2, s.v⟩, [.suspend (.SearchUI s.v), .uiBugFix], .handled⟩
  | .KeyCtrlI =>
    match cur.Walk deployCallback [] with
    | .done tr => ⟨s, tr ++ [.uiBugFix], .handled⟩
    | .panicked tr => ⟨s, tr, .panicked⟩
    | .outOfFuel => ⟨s, [], .outOfFuel⟩
  | .KeyCtrlN =>
    match cur.GetReference with
    | none => ⟨s, [], .panicked⟩
    | some r =>
      if r.objectType = "template" then
        ⟨s, [.suspend (.newVMFromTemplate cur.GetText), .uiBugFix], .handled⟩
      else
        ⟨s, [.suspend (.newVM dcName), .uiBugFix], .handled⟩
  | .KeyCtrlP =>
    let action := w.powerui
    let tr := [Event.suspend .powerui, .uiBugFix]
    match cur.GetReference with
    | none => ⟨s, tr, .panicked⟩
    | some r =>
      match r.vm with
      | none => ⟨s, tr, .handled⟩
      | some vm => ⟨s, tr ++ powerSwitch w vm action, .handled⟩
  | .KeyCtrlR =>
    let (v, err) := w.VMInventory dcName true
    let tr1 := [Event.remote (.VMInventory dcName true)] ++ reportErrorSuspended err
    if s.searchString ≠ "" then
      let (filteredVMs, err2) := w.searchVMS s.searchString v
      let newRoot := w.buildTree filteredVMs
      ⟨⟨s.searchString, s.root.ClearChildren.SetChildren newRoot.GetChildren, s.v⟩,
        tr1 ++ reportErrorSuspended err2, .handled⟩
    else
      let newRoot := w.buildTree v
      ⟨⟨s.searchString, s.root.ClearChildren.SetChildren newRoot.GetChildren, s.v⟩,
        tr1, .handled⟩
  | .KeyCtrlS =>
    match cur.GetReference with
    | none => ⟨s, [], .panicked⟩
    | some r =>
      if r.objectType = "snapshot" then
        match r.vm with
        | some vm =>
          ⟨s, [.remote (.RevertToSnapshot vm cur.GetText true)]
                ++ reportErrorSuspended (w.RevertToSnapshot vm cur.GetText true),
            .handled⟩
        | none => ⟨s, [], .handled⟩
      else ⟨s, [], .handled⟩
  | .other _ => ⟨s, [], .unhandled⟩

/-- Start of `MainUI` (ui.go 20-34): a nil slice is refused, otherwise the
root is `buildTree(v)`; searchString is the value the package variable has at
that moment. -/
def MainUI (buildTree : List VirtualMachine → TreeNode) (searchString : String)
    (v : Option (List VirtualMachine)) : Except String Session :=
  match v with
  | none => .error "No VMs"
  | some v => .ok ⟨searchString, buildTree v, v⟩

/-- One key press: the answers of the collaborators at that time, the node
that is current at that time, and the key. -/
structure Step where
  world : World
  cur : TreeNode
  key : Key

/-- The event loop: key presses are dispatched one at a time; a panic ends
the process. Returns the final session and the whole trace. -/
def runSession (dcName : String) : Session → List Step → Session × List Event
  | s, [] => (s, [])
  | s, st :: rest =>
    let o := inputCapture st.world dcName s st.cur st.key
    match o.ret with
    | .panicked => (o.state, o.trace)
    | .outOfFuel => (o.state, o.trace)
    | _ =>
      let r := runSession dcName o.state rest
      (r.1, o.trace ++ r.2)

/-! ## Tree builder -/

/-- Modelled from the spec: `buildTree` is declared outside ui.go. Section 4.1:
one subtree per VM in input order; the VM node carries the VM reference
(variant template for template VMs) and has the category branches disks,
network interfaces (leaves carrying the address) and snapshots (leaves
carrying the snapshot name and the owning VM). The tags "MAC", "template" and
"snapshot" are the ones ui.go tests; the snapshot leaf text is the snapshot
name, which ui.go passes to `RevertToSnapshot`. -/
def vmSubtree (vm : VirtualMachine) : TreeNode :=
  .mk vm.name true
    (some ⟨if vm.template then "template" else "Virtual Machine", vm.name, some vm⟩)
    [ .mk "Disks" true (some ⟨"Disks", "", some vm⟩)
        (vm.disks.map fun d => .mk d true (some ⟨"Disk", d, some vm⟩) []),
      .mk "Network Interfaces" true (some ⟨"Network", "", some vm⟩)
        (vm.macs.map fun a => .mk a true (some ⟨"MAC", a, some vm⟩) []),
      .mk "Snapshots" true (some ⟨"Snapshots", "", some vm⟩)
        (vm.snapshots.map fun n => .mk n true (some ⟨"snapshot", n, some vm⟩) []) ]

/-- Modelled from the spec: `buildTree` is declared outside ui.go. Section 4.1
and 3: the root has no reference, its label is the bare label that ui.go
restores when the filter is empty, and an empty input gives a root without
children. -/
def buildTree (v : List VirtualMachine) : TreeNode :=
  .mk "VMware vCenter" true none (v.map vmSubtree)

/-! ## Specification-side notions -/

/-- Whether the node carries a reference tagged "MAC". -/
def isMAC (n : TreeNode) : Bool :=
  match n.GetReference with
  | none => false
  | some r => decide (r.objectType = "MAC")

/-- Whether the walk of the install case goes on below the node: it has a
reference and is not tagged "MAC". -/
def descends (n : TreeNode) : Bool :=
  match n.GetReference with
  | none => false
  | some r => decide (r.objectType ≠ "MAC")

mutual
/-- Nodes of the subtree in depth-first pre-order, not going below a node
without reference or below a "MAC" node. -/
def walked : TreeNode → List TreeNode
  | .mk t e r c => .mk t e r c :: (if descends (.mk t e r c) then walkedList c else [])
/-- Pruned pre-order of a forest, left to right. -/
def walkedList : List TreeNode → List TreeNode
  | [] => []
  | n :: ns => walked n ++ walkedList ns
end

/-- The callback applied to a sequence of nodes in order, stopping at a
panic. -/
def runCallbacks : List TreeNode → List Event → WalkResult (List Event)
  | [], tr => .done tr
  | n :: ns, tr =>
    match deployCallback n tr with
    | .panic t => .panicked t
    | .next t _ => runCallbacks ns t

/-- Trace discipline of the suspension protocol: reading the trace left to
right, `pending` says that a suspend has not been repaired yet. Every
`suspend` must find no pending one, every `uiBugFix` clears it, and at the end
nothing is pending. -/
def suspendsRepaired : Bool → List Event → Bool
  | pending, [] => !pending
  | pending, .suspend _ :: es => !pending && suspendsRepaired true es
  | _, .uiBugFix :: es => suspendsRepaired false es
  | pending, .errorUI _ :: es => suspendsRepaired pending es
  | pending, .remote _ :: es => suspendsRepaired pending es
  | pending, .afterFunc _ _ :: es => suspendsRepaired pending es

/-- Number of `deployOnVM` dialogs in a trace. -/
def deployCount : List Event → Nat
  | [] => 0
  | .suspend (.deployOnVM _ _) :: es => deployCount es + 1
  | _ :: es => deployCount es

mutual
/-- All nodes of the subtree in depth-first pre-order (nothing pruned). -/
def preorder : TreeNode → List TreeNode
  | .mk t e r c => .mk t e r c :: preorderList c
/-- All nodes of a forest in depth-first pre-order. -/
def preorderList : List TreeNode → List TreeNode
  | [] => []
  | n :: ns => preorder n ++ preorderList ns
end

/-! ## Concrete sessions used in the examples -/

def web01 : VirtualMachine :=
  ⟨"web01", false, ["disk-0"], ["00:50:56:aa:00:01", "00:50:56:aa:00:02"], ["clean"]⟩

def db01 : VirtualMachine :=
  ⟨"db01", false, ["disk-0"], ["00:50:56:bb:00:01"], []⟩

def golden : VirtualMachine :=
  ⟨"golden", true, ["disk-0"], [], []⟩

/-- A dispatch in which every collaborator succeeds: the power menu answers
powerOn, the search dialog answers ("web", [web01]), the re-fetch answers
[web01, db01]. -/
def calm : World where
  buildTree := buildTree
  searchVMS := fun _ _ => ([web01], none)
  SearchUI := fun _ => ("web", [web01])
  VMInventory := fun _ _ => ([web01, db01], none)
  powerui := .powerOn
  Destroy := fun _ => none
  PowerOn := fun _ => none
  PowerOff := fun _ => none
  ShutdownGuest := fun _ => none
  RebootGuest := fun _ => none
  Suspend := fun _ => none
  Reset := fun _ => none
  Device := fun _ => (["ethernet-0", "disk-1000-0"], none)
  SetBootOptions := fun _ _ _ => none
  RevertToSnapshot := fun _ _ _ => none

/-- A dispatch in which the vCenter is unreachable: every remote call fails,
the re-fetch returns a nil slice and an error. -/
def offline : World where
  buildTree := buildTree
  searchVMS := fun _ _ => ([], none)
  SearchUI := fun _ => ("", [])
  VMInventory := fun _ _ => ([], some "connection refused")
  powerui := .netPowerOn
  Destroy := fun _ => some "connection refused"
  PowerOn := fun _ => some "connection refused"
  PowerOff := fun _ => some "connection refused"
  ShutdownGuest := fun _ => some "connection refused"
  RebootGuest := fun _ => some "connection refused"
  Suspend := fun _ => some "connection refused"
  Reset := fun _ => some "connection refused"
  Device := fun _ => ([], some "connection refused")
  SetBootOptions := fun _ _ _ => some "connection refused"
  RevertToSnapshot := fun _ _ _ => some "connection refused"

/-- A dispatch in which the re-fetch succeeds but re-applying the filter
fails. -/
def badFilter : World where
  buildTree := buildTree
  searchVMS := fun _ _ => ([], some "error parsing regexp")
  SearchUI := fun _ => ("web(", [])
  VMInventory := fun _ _ => ([web01, db01], none)
  powerui := .reset
  Destroy := fun _ => none
  PowerOn := fun _ => none
  PowerOff := fun _ => none
  ShutdownGuest := fun _ => none
  RebootGuest := fun _ => none
  Suspend := fun _ => none
  Reset := fun _ => none
  Device := fun _ => (["ethernet-0", "disk-1000-0"], none)
  SetBootOptions := fun _ _ _ => none
  RevertToSnapshot := fun _ _ _ => none

/-- Session with the filter "web(" active and web01 shown. -/
def sessionFiltered : Session :=
  ⟨"web(", (buildTree [web01]).SetText "VMware vCenter (filter: web()", [web01, db01, golden]⟩

/-- Session right after `MainUI([web01, db01, golden], ...)` with no filter. -/
def session0 : Session :=
  ⟨"", buildTree [web01, db01, golden], [web01, db01, golden]⟩

/-- The node of web01 in the tree of `session0`. -/
def web01Node : TreeNode := vmSubtree web01

/-! ## The walk: fuel and traversal order -/

theorem listSize_append (a b : List TreeNode) :
    listSize (a ++ b) = listSize a + listSize b := by
  induction a with
  | nil => simp [listSize]
  | cons n ns ih => simp [listSize, ih, Nat.add_assoc]

theorem walkedList_append (a b : List TreeNode) :
    walkedList (a ++ b) = walkedList a ++ walkedList b := by
  induction a with
  | nil => simp [walkedList]
  | cons n ns ih => simp [walkedList, ih]

theorem listSize_cons_children (n : TreeNode) (ns : List TreeNode) :
    listSize (n :: ns) = 1 + listSize (n.GetChildren ++ ns) := by
  cases n with
  | mk t e r c =>
    simp [listSize, nodeSize, TreeNode.GetChildren, listSize_append, Nat.add_assoc]

/-- The fuel given by `TreeNode.Walk` is never exhausted: as many iterations
as there are nodes on the stack always suffice, whatever the callback. -/
theorem walkLoop_fuel {σ : Type} (callback : TreeNode → σ → WalkStep σ) :
    ∀ (fuel : Nat) (nodes : List TreeNode) (s : σ), listSize nodes ≤ fuel →
      walkLoop callback fuel nodes s ≠ .outOfFuel := by
  intro fuel
  induction fuel with
  | zero =>
    intro nodes s h
    cases nodes with
    | nil => simp [walkLoop]
    | cons n ns =>
      rw [listSize_cons_children] at h
      omega
  | succ k ih =>
    intro nodes s h
    cases nodes with
    | nil => simp [walkLoop]
    | cons n ns =>
      rw [listSize_cons_children] at h
      have hns : listSize ns ≤ k := by
        rw [listSize_append] at h
        omega
      have hch : listSize (n.GetChildren ++ ns) ≤ k := by omega
      simp only [walkLoop]
      cases hcb : callback n s with
      | panic s1 => simp
      | next s1 b =>
        cases b with
        | false => exact ih ns s1 hns
        | true => exact ih _ s1 hch

theorem deployCallback_descend (n : TreeNode) (tr t : List Event) (b : Bool)
    (h : deployCallback n tr = .next t b) : b = descends n := by
  unfold deployCallback at h
  unfold descends
  cases hr : n.GetReference with
  | none =>
    rw [hr] at h
    simp at h
    simp [h.2]
  | some r =>
    rw [hr] at h
    by_cases hm : r.objectType = "MAC"
    · cases hv : r.vm with
      | none => simp [hm, hv] at h
      | some vm =>
        simp [hm, hv] at h
        simp [hm, h.2]
    · simp [hm] at h
      simp [hm, h.2]

theorem walkedList_cons (n : TreeNode) (ns : List TreeNode) :
    walkedList (n :: ns)
      = n :: walkedList (if descends n then n.GetChildren ++ ns else ns) := by
  cases n with
  | mk t e r c =>
    by_cases hd : descends (.mk t e r c) = true
    · simp [walkedList, walked, hd, TreeNode.GetChildren, walkedList_append]
    · simp [walkedList, walked, hd]

/-- With enough fuel the stack loop of the install case calls the callback on
exactly the nodes of the pruned pre-order, in that order. -/
theorem walkLoop_deploy (fuel : Nat) :
    ∀ (nodes : List TreeNode) (tr : List Event), listSize nodes ≤ fuel →
      walkLoop deployCallback fuel nodes tr = runCallbacks (walkedList nodes) tr := by
  induction fuel with
  | zero =>
    intro nodes tr h
    cases nodes with
    | nil => simp [walkLoop, walkedList, runCallbacks]
    | cons n ns =>
      rw [listSize_cons_children] at h
      omega
  | succ k ih =>
    intro nodes tr h
    cases nodes with
    | nil => simp [walkLoop, walkedList, runCallbacks]
    | cons n ns =>
      rw [listSize_cons_children] at h
      have hns : listSize ns ≤ k := by
        rw [listSize_append] at h
        omega
      have hch : listSize (n.GetChildren ++ ns) ≤ k := by omega
      rw [walkedList_cons]
      simp only [walkLoop, runCallbacks]
      cases hcb : deployCallback n tr with
      | panic t => simp
      | next t b =>
        have hb := deployCallback_descend n tr t b hcb
        cases b with
        | false =>
          simp only [← hb]
          simpa using ih ns t hns
        | true =>
          simp only [← hb]
          simpa using ih _ t hch

theorem Walk_deploy (cur : TreeNode) :
    cur.Walk deployCallback [] = runCallbacks (walked cur) [] := by
  have h := walkLoop_deploy (nodeSize cur) [cur] [] (by simp [listSize])
  simpa [TreeNode.Walk, walkedList] using h

/-! ## Lifecycle keys on a node without reference -/

theorem inputCapture_nil_reference (w : World) (dcName : String) (s : Session)
    (cur : TreeNode) (h : cur.GetReference = none) :
    (inputCapture w dcName s cur .KeyCtrlD).ret = .panicked
      ∧ (inputCapture w dcName s cur .KeyCtrlN).ret = .panicked
      ∧ (inputCapture w dcName s cur .KeyCtrlP).ret = .panicked
      ∧ (inputCapture w dcName s cur .KeyCtrlS).ret = .panicked := by
  simp [inputCapture, h]

/-- C1 (fails on the code): with the root of the start session as current node,
which has no reference, each of Ctrl+D, Ctrl+N, Ctrl+P and Ctrl+S ends in the
failed type assertion `GetReference().(reference)` instead of returning; for
Ctrl+P the power menu has already been shown by then. -/
theorem C1_lifecycle_key_on_root_panics :
    session0.root.GetReference = none
      ∧ (inputCapture calm "dc1" session0 session0.root .KeyCtrlD).ret = .panicked
      ∧ (inputCapture calm "dc1" session0 session0.root .KeyCtrlN).ret = .panicked
      ∧ (inputCapture calm "dc1" session0 session0.root .KeyCtrlP).ret = .panicked
      ∧ (inputCapture calm "dc1" session0 session0.root .KeyCtrlP).trace
          = [.suspend .powerui, .uiBugFix]
      ∧ (inputCapture calm "dc1" session0 session0.root .KeyCtrlS).ret = .panicked := by
  decide

/-! ## Delete -/

/-- C7 (fails on the code): Ctrl+D on the node of web01 while `Destroy` fails.
The dispatch consists of the remote call alone; the returned error is dropped,
no error dialog is shown, and the key counts as handled. -/
theorem C7_destroy_error_dropped :
    web01Node.GetReference = some ⟨"Virtual Machine", "web01", some web01⟩
      ∧ offline.Destroy web01 = some "connection refused"
      ∧ (inputCapture offline "dc1" session0 web01Node .KeyCtrlD).trace
          = [.remote (.Destroy web01)]
      ∧ (inputCapture offline "dc1" session0 web01Node .KeyCtrlD).ret = .handled := by
  decide

/-! ## Refresh -/

/-- C3 (as stated, fails on the code): a refresh whose re-fetch fails shows the
error dialog and then rebuilds the tree from the slice returned with the error,
so the three VM subtrees of the root are gone; likewise a refresh whose filter
re-application fails replaces the children by the tree of the slice returned
with that error. -/
theorem C3_failed_refresh_replaces_children :
    session0.root.GetChildren.length = 3
      ∧ (inputCapture offline "dc1" session0 session0.root .KeyCtrlR).trace
          = [.remote (.VMInventory "dc1" true),
             .suspend (.errorUI "connection refused"), .uiBugFix]
      ∧ (inputCapture offline "dc1" session0 session0.root .KeyCtrlR).state.root.GetChildren.length
          = 0
      ∧ sessionFiltered.root.GetChildren.length = 1
      ∧ (inputCapture badFilter "dc1" sessionFiltered sessionFiltered.root .KeyCtrlR).trace
          = [.remote (.VMInventory "dc1" true),
             .suspend (.errorUI "error parsing regexp"), .uiBugFix]
      ∧ (inputCapture badFilter "dc1" sessionFiltered sessionFiltered.root
            .KeyCtrlR).state.root.GetChildren.length = 0 := by
  decide

/-- C3 (amended): a refresh reports a failed re-fetch and a failed filter
re-application through the error dialog, each suspended and repaired, and goes
on in either case: the children of the root become those of `buildTree` of the
list that came back with the error, passed through `searchVMS` when the filter
is not empty. The rest of the root and searchString stay as they were. -/
theorem C3_refresh_reports_and_rebuilds (w : World) (dcName : String) (s : Session)
    (cur : TreeNode) :
    (inputCapture w dcName s cur .KeyCtrlR).trace
        = [.remote (.VMInventory dcName true)]
          ++ reportErrorSuspended (w.VMInventory dcName true).2
          ++ (if s.searchString = "" then []
              else reportErrorSuspended
                (w.searchVMS s.searchString (w.VMInventory dcName true).1).2)
      ∧ (inputCapture w dcName s cur .KeyCtrlR).state.root.GetChildren
          = (w.buildTree (if s.searchString = "" then (w.VMInventory dcName true).1
              else (w.searchVMS s.searchString (w.VMInventory dcName true).1).1)).GetChildren
      ∧ (inputCapture w dcName s cur .KeyCtrlR).state.root.GetText = s.root.GetText
      ∧ (inputCapture w dcName s cur .KeyCtrlR).state.searchString = s.searchString
      ∧ (inputCapture w dcName s cur .KeyCtrlR).ret = .handled
      ∧ ∀ err, reportErrorSuspended (some err) = [.suspend (.errorUI err), .uiBugFix] := by
  obtain ⟨ss, root, v⟩ := s
  cases root with
  | mk t e r c =>
    by_cases hs : ss = ""
    · simp [inputCapture, hs, reportErrorSuspended, TreeNode.GetChildren,
        TreeNode.GetText, TreeNode.ClearChildren, TreeNode.SetChildren]
    · simp [inputCapture, hs, reportErrorSuspended, TreeNode.GetChildren,
        TreeNode.GetText, TreeNode.ClearChildren, TreeNode.SetChildren]

/-- C4: a refresh whose re-fetch and filtering succeed replaces the children
of the root by those of `buildTree(L)`, L being the filtered re-fetched list
when a filter is active and the whole re-fetched list otherwise; text,
reference and expanded flag of the root and searchString stay as they were,
and no dialog is shown. -/
theorem C4_refresh_success (w : World) (dcName : String) (s : Session)
    (cur : TreeNode) (fetched : List VirtualMachine)
    (hfetch : w.VMInventory dcName true = (fetched, none))
    (hfilter : s.searchString ≠ "" → (w.searchVMS s.searchString fetched).2 = none) :
    (inputCapture w dcName s cur .KeyCtrlR).state.root.GetChildren
        = (w.buildTree (if s.searchString = "" then fetched
            else (w.searchVMS s.searchString fetched).1)).GetChildren
      ∧ (inputCapture w dcName s cur .KeyCtrlR).state.root.GetText = s.root.GetText
      ∧ (inputCapture w dcName s cur .KeyCtrlR).state.root.GetReference
          = s.root.GetReference
      ∧ (inputCapture w dcName s cur .KeyCtrlR).state.root.IsExpanded = s.root.IsExpanded
      ∧ (inputCapture w dcName s cur .KeyCtrlR).state.searchString = s.searchString
      ∧ (inputCapture w dcName s cur .KeyCtrlR).trace = [.remote (.VMInventory dcName true)]
      ∧ (inputCapture w dcName s cur .KeyCtrlR).ret = .handled := by
  obtain ⟨ss, root, v⟩ := s
  cases root with
  | mk t e r c =>
    by_cases hs : ss = ""
    · simp [inputCapture, hfetch, hs, reportErrorSuspended, TreeNode.GetChildren,
        TreeNode.GetText, TreeNode.GetReference, TreeNode.IsExpanded,
        TreeNode.ClearChildren, TreeNode.SetChildren]
    · have h2 := hfilter hs
      simp only [] at h2
      simp [inputCapture, hfetch, hs, h2, reportErrorSuspended, TreeNode.GetChildren,
        TreeNode.GetText, TreeNode.GetReference, TreeNode.IsExpanded,
        TreeNode.ClearChildren, TreeNode.SetChildren]

/-- Refresh with the filter "web" active and a successful re-fetch of
[web01, db01]: the root shows the tree of the filtered list [web01]. -/
theorem C4_refresh_success_witness :
    (inputCapture calm "dc1" ⟨"web", buildTree [], []⟩ (buildTree []) .KeyCtrlR).state.root.GetChildren
        = (buildTree [web01]).GetChildren
      ∧ (inputCapture calm "dc1" ⟨"web", buildTree [], []⟩ (buildTree []) .KeyCtrlR).trace
          = [.remote (.VMInventory "dc1" true)] :=
  have h := C4_refresh_success calm "dc1" ⟨"web", buildTree [], []⟩ (buildTree [])
    [web01, db01] rfl (fun _ => rfl)
  ⟨h.1, h.2.2.2.2.2.1⟩

/-! ## Find -/

/-- C8: after Ctrl+F with the search dialog answering (filterString, subset),
searchString is filterString, the children of the root are those of
`buildTree(subset)`, the root keeps its reference and expanded flag, and its
text is the bare label for the empty filter and the label with the filter
otherwise, whatever subset is. -/
theorem C8_find (w : World) (dcName : String) (s : Session) (cur : TreeNode) :
    (inputCapture w dcName s cur .KeyCtrlF).state.searchString = (w.SearchUI s.v).1
      ∧ (inputCapture w dcName s cur .KeyCtrlF).state.root.GetChildren
          = (w.buildTree (w.SearchUI s.v).2).GetChildren
      ∧ (inputCapture w dcName s cur .KeyCtrlF).state.root.GetReference
          = s.root.GetReference
      ∧ (inputCapture w dcName s cur .KeyCtrlF).state.root.IsExpanded = s.root.IsExpanded
      ∧ (inputCapture w dcName s cur .KeyCtrlF).state.root.GetText
          = (if (w.SearchUI s.v).1 = "" then "VMware vCenter"
             else "VMware vCenter (filter: " ++ (w.SearchUI s.v).1 ++ ")")
      ∧ (inputCapture w dcName s cur .KeyCtrlF).ret = .handled := by
  obtain ⟨ss, root, v⟩ := s
  cases root with
  | mk t e r c =>
    by_cases hf : (w.SearchUI v).1 = ""
    · simp [inputCapture, hf, TreeNode.GetChildren, TreeNode.GetText,
        TreeNode.GetReference, TreeNode.IsExpanded, TreeNode.ClearChildren,
        TreeNode.SetChildren, TreeNode.SetText]
    · simp [inputCapture, hf, TreeNode.GetChildren, TreeNode.GetText,
        TreeNode.GetReference, TreeNode.IsExpanded, TreeNode.ClearChildren,
        TreeNode.SetChildren, TreeNode.SetText]

/-! ## Power -/

/-- C6: for each of the six state-changing power actions on a reference whose
vm is set, the dispatch is the power menu with its repair, then the one
corresponding remote call on that vm, then the error dialog once if the call
failed and nothing if it succeeded; nothing is scheduled. -/
theorem C6_state_changing_power (w : World) (dcName : String) (s : Session)
    (cur : TreeNode) (r : reference) (vm : VirtualMachine)
    (hr : cur.GetReference = some r) (hv : r.vm = some vm) :
    (w.powerui = .powerOn → (inputCapture w dcName s cur .KeyCtrlP).trace
        = [.suspend .powerui, .uiBugFix, .remote (.PowerOn vm)] ++ reportError (w.PowerOn vm))
      ∧ (w.powerui = .powerOff → (inputCapture w dcName s cur .KeyCtrlP).trace
        = [.suspend .powerui, .uiBugFix, .remote (.PowerOff vm)] ++ reportError (w.PowerOff vm))
      ∧ (w.powerui = .guestPowerOff → (inputCapture w dcName s cur .KeyCtrlP).trace
        = [.suspend .powerui, .uiBugFix, .remote (.ShutdownGuest vm)]
            ++ reportError (w.ShutdownGuest vm))
      ∧ (w.powerui = .guestReboot → (inputCapture w dcName s cur .KeyCtrlP).trace
        = [.suspend .powerui, .uiBugFix, .remote (.RebootGuest vm)]
            ++ reportError (w.RebootGuest vm))
      ∧ (w.powerui = .suspend → (inputCapture w dcName s cur .KeyCtrlP).trace
        = [.suspend .powerui, .uiBugFix, .remote (.Suspend vm)] ++ reportError (w.Suspend vm))
      ∧ (w.powerui = .reset → (inputCapture w dcName s cur .KeyCtrlP).trace
        = [.suspend .powerui, .uiBugFix, .remote (.Reset vm)] ++ reportError (w.Reset vm))
      ∧ (inputCapture w dcName s cur .KeyCtrlP).ret = .handled
      ∧ reportError none = []
      ∧ ∀ err, reportError (some err) = [.errorUI err] := by
  refine ⟨?_, ?_, ?_, ?_, ?_, ?_, ?_, rfl, fun _ => rfl⟩ <;>
    first
      | (intro ha; simp [inputCapture, hr, hv, ha, powerSwitch])
      | simp [inputCapture, hr, hv]

/-- Power-on of web01 succeeds: one remote call, no error dialog. -/
theorem C6_state_changing_power_witness :
    (inputCapture calm "dc1" session0 web01Node .KeyCtrlP).trace
      = [.suspend .powerui, .uiBugFix, .remote (.PowerOn web01)] ++ reportError none :=
  (C6_state_changing_power calm "dc1" session0 web01Node
    ⟨"Virtual Machine", "web01", some web01⟩ web01 rfl rfl).1 rfl

/-- C5: the network-boot action on a reference whose vm is set performs, after
the power menu and its repair and whatever the calls answer: `Device`;
`SetBootOptions` with the order for ["ethernet", "disk"] over the returned
device list; `PowerOn`; each followed by the error dialog exactly when it
failed; and finally one `AfterFunc` of 3 seconds whose closure holds the same
vm and device list and, when run, calls `SetBootOptions` with the order for
["disk", "ethernet"] and reports its failure. -/
theorem C5_network_boot_once (w : World) (dcName : String) (s : Session)
    (cur : TreeNode) (r : reference) (vm : VirtualMachine)
    (hr : cur.GetReference = some r) (hv : r.vm = some vm)
    (ha : w.powerui = .netPowerOn) :
    (inputCapture w dcName s cur .KeyCtrlP).trace
        = [.suspend .powerui, .uiBugFix]
          ++ [.remote (.Device vm)] ++ reportError (w.Device vm).2
          ++ [.remote (.SetBootOptions vm (w.Device vm).1 ["ethernet", "disk"])]
          ++ reportError (w.SetBootOptions vm (w.Device vm).1 ["ethernet", "disk"])
          ++ [.remote (.PowerOn vm)] ++ reportError (w.PowerOn vm)
          ++ [.afterFunc 3 ⟨vm, (w.Device vm).1⟩]
      ∧ (inputCapture w dcName s cur .KeyCtrlP).ret = .handled
      ∧ (∀ later : World, BootRevert.run later ⟨vm, (w.Device vm).1⟩
          = [.remote (.SetBootOptions vm (w.Device vm).1 ["disk", "ethernet"])]
            ++ reportError (later.SetBootOptions vm (w.Device vm).1 ["disk", "ethernet"]))
      ∧ reportError none = []
      ∧ ∀ err, reportError (some err) = [.errorUI err] := by
  refine ⟨?_, ?_, fun _ => rfl, rfl, fun _ => rfl⟩
  · simp [inputCapture, hr, hv, ha, powerSwitch]
  · simp [inputCapture, hr, hv]

/-- Network boot of web01 while every remote call fails: all three calls are
still made, each failure is reported, and the revert is scheduled. -/
theorem C5_network_boot_once_witness :
    (inputCapture offline "dc1" session0 web01Node .KeyCtrlP).trace
      = [.suspend .powerui, .uiBugFix,
         .remote (.Device web01), .errorUI "connection refused",
         .remote (.SetBootOptions web01 [] ["ethernet", "disk"]),
         .errorUI "connection refused",
         .remote (.PowerOn web01), .errorUI "connection refused",
         .afterFunc 3 ⟨web01, []⟩] :=
  (C5_network_boot_once offline "dc1" session0 web01Node
    ⟨"Virtual Machine", "web01", some web01⟩ web01 rfl rfl rfl).1

/-! ## Install -/

theorem deployCallback_not_mac (n : TreeNode) (tr : List Event) (h : isMAC n = false) :
    deployCallback n tr = .next tr (descends n) := by
  unfold isMAC at h
  unfold deployCallback descends
  cases hr : n.GetReference with
  | none => rfl
  | some r =>
    rw [hr] at h
    have hm : ¬ r.objectType = "MAC" := by simpa using h
    simp [hm]

theorem deployCallback_mac (n : TreeNode) (tr : List Event) (r : reference)
    (vm : VirtualMachine) (h : isMAC n = true) (hr : n.GetReference = some r)
    (hv : r.vm = some vm) :
    deployCallback n tr
      = .next (tr ++ [.suspend (.deployOnVM r.objectDetails vm.name)]) false := by
  unfold isMAC at h
  rw [hr] at h
  have hm : r.objectType = "MAC" := by simpa using h
  simp [deployCallback, hr, hm, hv]

theorem deployCallback_extends (n : TreeNode) (tr : List Event) :
    ∃ tl, deployCallback n tr = .panic (tr ++ tl)
      ∨ ∃ b, deployCallback n tr = .next (tr ++ tl) b := by
  unfold deployCallback
  cases n.GetReference with
  | none => exact ⟨[], Or.inr ⟨false, by simp⟩⟩
  | some r =>
    by_cases hm : r.objectType = "MAC"
    · cases hv : r.vm with
      | none => exact ⟨[], Or.inl (by simp [hm, hv])⟩
      | some vm =>
        exact ⟨[.suspend (.deployOnVM r.objectDetails vm.name)],
          Or.inr ⟨false, by simp [hm, hv]⟩⟩
    · exact ⟨[], Or.inr ⟨true, by simp [hm]⟩⟩

theorem runCallbacks_extends (l : List TreeNode) :
    ∀ tr : List Event, ∃ tl, runCallbacks l tr = .done (tr ++ tl)
      ∨ runCallbacks l tr = .panicked (tr ++ tl) := by
  induction l with
  | nil => intro tr; exact ⟨[], Or.inl (by simp [runCallbacks])⟩
  | cons n ns ih =>
    intro tr
    obtain ⟨t1, h1⟩ := deployCallback_extends n tr
    rcases h1 with h1 | ⟨b, h1⟩
    · exact ⟨t1, Or.inr (by simp [runCallbacks, h1])⟩
    · obtain ⟨t2, h2⟩ := ih (tr ++ t1)
      refine ⟨t1 ++ t2, ?_⟩
      rcases h2 with h2 | h2
      · exact Or.inl (by simp [runCallbacks, h1, h2])
      · exact Or.inr (by simp [runCallbacks, h1, h2])

theorem runCallbacks_no_mac (l : List TreeNode) :
    ∀ tr : List Event, l.filter isMAC = [] → runCallbacks l tr = .done tr := by
  induction l with
  | nil => intro tr _; rfl
  | cons n ns ih =>
    intro tr h
    have hn : isMAC n = false := by
      cases hm : isMAC n with
      | false => rfl
      | true => simp [List.filter, hm] at h
    have hns : ns.filter isMAC = [] := by simpa [List.filter, hn] using h
    simp [runCallbacks, deployCallback_not_mac n tr hn, ih tr hns]

theorem runCallbacks_first_mac (l : List TreeNode) :
    ∀ (tr : List Event) (m : TreeNode) (rest : List TreeNode) (r : reference)
      (vm : VirtualMachine), l.filter isMAC = m :: rest → m.GetReference = some r →
      r.vm = some vm →
      ∃ tl, runCallbacks l tr
            = .done (tr ++ .suspend (.deployOnVM r.objectDetails vm.name) :: tl)
        ∨ runCallbacks l tr
            = .panicked (tr ++ .suspend (.deployOnVM r.objectDetails vm.name) :: tl) := by
  induction l with
  | nil => intro tr m rest r vm h; simp at h
  | cons n ns ih =>
    intro tr m rest r vm h hr hv
    cases hn : isMAC n with
    | false =>
      have hns : ns.filter isMAC = m :: rest := by simpa [List.filter, hn] using h
      obtain ⟨tl, htl⟩ := ih tr m rest r vm hns hr hv
      refine ⟨tl, ?_⟩
      simpa [runCallbacks, deployCallback_not_mac n tr hn] using htl
    | true =>
      have hnm : n = m := by
        have h2 : n :: ns.filter isMAC = m :: rest := by simpa [List.filter, hn] using h
        exact (List.cons.inj h2).1
      subst hnm
      obtain ⟨tl, htl⟩ :=
        runCallbacks_extends ns (tr ++ [.suspend (.deployOnVM r.objectDetails vm.name)])
      refine ⟨tl, ?_⟩
      simpa [runCallbacks, deployCallback_mac n tr r vm hn hr hv] using htl

/-- C2 (as stated, fails on the code): Ctrl+I with the root as current node.
The subtree of the root holds three "MAC" nodes, but the root has no reference,
the walk does not go below it, and `deployOnVM` is not called. -/
theorem C2_install_on_root_deploys_nothing :
    ((preorder session0.root).filter isMAC).length = 3
      ∧ (inputCapture calm "dc1" session0 session0.root .KeyCtrlI).trace = [.uiBugFix]
      ∧ deployCount (inputCapture calm "dc1" session0 session0.root .KeyCtrlI).trace = 0 := by
  decide

/-- C2 (amended): Ctrl+I walks the subtree of the current node depth-first in
pre-order without going below a node that has no reference or below a "MAC"
node. On a current node without reference, and whenever that walk meets no
"MAC" node, the dispatch is the repair step alone and `deployOnVM` is not
called. Otherwise the first "MAC" node met, if its reference has a vm, gets
`deployOnVM` with its objectDetails as address and the name of that vm as
hostname, as the first action of the dispatch. -/
theorem C2_install_walk (w : World) (dcName : String) (s : Session) (cur : TreeNode) :
    (cur.GetReference = none →
        (inputCapture w dcName s cur .KeyCtrlI).trace = [.uiBugFix])
      ∧ ((walked cur).filter isMAC = [] →
        (inputCapture w dcName s cur .KeyCtrlI).trace = [.uiBugFix]
          ∧ (inputCapture w dcName s cur .KeyCtrlI).ret = .handled)
      ∧ (∀ (m : TreeNode) (rest : List TreeNode) (r : reference) (vm : VirtualMachine),
          (walked cur).filter isMAC = m :: rest → m.GetReference = some r →
          r.vm = some vm →
          ∃ tl, (inputCapture w dcName s cur .KeyCtrlI).trace
            = .suspend (.deployOnVM r.objectDetails vm.name) :: tl) := by
  have hnone : (walked cur).filter isMAC = [] →
      (inputCapture w dcName s cur .KeyCtrlI).trace = [.uiBugFix]
        ∧ (inputCapture w dcName s cur .KeyCtrlI).ret = .handled := by
    intro h
    simp [inputCapture, Walk_deploy, runCallbacks_no_mac _ [] h]
  refine ⟨?_, hnone, ?_⟩
  · intro h
    apply (hnone ?_).1
    cases cur with
    | mk t e r c =>
      have hr : r = none := by simpa [TreeNode.GetReference] using h
      subst hr
      simp [walked, descends, isMAC, TreeNode.GetReference, List.filter]
  · intro m rest r vm h hr hv
    obtain ⟨tl, htl⟩ := runCallbacks_first_mac _ [] m rest r vm h hr hv
    rcases htl with htl | htl
    · exact ⟨tl ++ [.uiBugFix], by simp [inputCapture, Walk_deploy, htl]⟩
    · exact ⟨tl, by simp [inputCapture, Walk_deploy, htl]⟩

/-- Ctrl+I on the node of db01, which has one network interface: the dispatch
starts with the deploy dialog for that address and host. -/
theorem C2_install_walk_witness :
    ∃ tl, (inputCapture calm "dc1" session0 (vmSubtree db01) .KeyCtrlI).trace
      = .suspend (.deployOnVM "00:50:56:bb:00:01" "db01") :: tl :=
  (C2_install_walk calm "dc1" session0 (vmSubtree db01)).2.2
    (.mk "00:50:56:bb:00:01" true (some ⟨"MAC", "00:50:56:bb:00:01", some db01⟩) [])
    [] ⟨"MAC", "00:50:56:bb:00:01", some db01⟩ db01 rfl rfl rfl

/-! ## Suspension protocol -/

/-- C9 (fails on the code): Ctrl+I on the node of web01, which has two network
interfaces. Returning false from the walk callback only prunes the children of
the visited node, so the walk goes on to the second interface: the application
is suspended twice in a row and repaired once, after the walk. -/
theorem C9_install_suspends_twice :
    (inputCapture calm "dc1" session0 web01Node .KeyCtrlI).trace
        = [.suspend (.deployOnVM "00:50:56:aa:00:01" "web01"),
           .suspend (.deployOnVM "00:50:56:aa:00:02" "web01"),
           .uiBugFix]
      ∧ (inputCapture calm "dc1" session0 web01Node .KeyCtrlI).ret = .handled
      ∧ suspendsRepaired false
          (inputCapture calm "dc1" session0 web01Node .KeyCtrlI).trace = false
      ∧ deployCount (inputCapture calm "dc1" session0 web01Node .KeyCtrlI).trace = 2 := by
  decide

/-- The dispatcher always comes to an end: the fuel of the walk is never
exhausted. -/
theorem inputCapture_total (w : World) (dcName : String) (s : Session) (cur : TreeNode)
    (k : Key) : (inputCapture w dcName s cur k).ret ≠ .outOfFuel := by
  cases k with
  | KeyCtrlI =>
    have hfuel : cur.Walk deployCallback ([] : List Event) ≠ .outOfFuel :=
      walkLoop_fuel deployCallback (nodeSize cur) [cur] [] (by simp [listSize])
    simp only [inputCapture]
    cases hw : cur.Walk deployCallback ([] : List Event) with
    | done tr => simp
    | panicked tr => simp
    | outOfFuel => exact absurd hw hfuel
  | KeyCtrlD =>
    simp only [inputCapture]
    repeat' split
    all_goals simp
  | KeyCtrlF => simp [inputCapture]
  | KeyCtrlN =>
    simp only [inputCapture]
    repeat' split
    all_goals simp
  | KeyCtrlP =>
    simp only [inputCapture]
    repeat' split
    all_goals simp
  | KeyCtrlR =>
    simp only [inputCapture]
    repeat' split
    all_goals simp
  | KeyCtrlS =>
    simp only [inputCapture]
    repeat' split
    all_goals simp
  | other c => simp [inputCapture]

theorem suspendsRepaired_reportError (pending : Bool) (e : Option Err) (es : List Event) :
    suspendsRepaired pending (reportError e ++ es) = suspendsRepaired pending es := by
  cases e <;> simp [reportError, suspendsRepaired]

theorem suspendsRepaired_powerSwitch (w : World) (vm : VirtualMachine) (a : PowerAction) :
    suspendsRepaired false (powerSwitch w vm a) = true := by
  have h0 : ∀ e : Option Err, suspendsRepaired false (reportError e) = true := by
    intro e
    cases e <;> simp [reportError, suspendsRepaired]
  cases a <;>
    simp [powerSwitch, suspendsRepaired, suspendsRepaired_reportError, h0, List.append_assoc]

/-- Every key other than Ctrl+I keeps the suspension discipline: each suspend
is repaired before the next one and before the end of the dispatch. -/
theorem suspendsRepaired_other_keys (w : World) (dcName : String) (s : Session)
    (cur : TreeNode) (k : Key) (hk : k ≠ .KeyCtrlI) :
    suspendsRepaired false (inputCapture w dcName s cur k).trace = true := by
  have hs : ∀ e : Option Err, suspendsRepaired false (reportErrorSuspended e) = true := by
    intro e
    cases e <;> simp [reportErrorSuspended, suspendsRepaired]
  have hs2 : ∀ (e : Option Err) (es : List Event),
      suspendsRepaired false (reportErrorSuspended e ++ es) = suspendsRepaired false es := by
    intro e es
    cases e <;> simp [reportErrorSuspended, suspendsRepaired]
  cases k with
  | KeyCtrlI => exact absurd rfl hk
  | KeyCtrlD =>
    simp only [inputCapture]
    repeat' split
    all_goals simp [suspendsRepaired]
  | KeyCtrlF => simp [inputCapture, suspendsRepaired]
  | KeyCtrlN =>
    simp only [inputCapture]
    repeat' split
    all_goals simp [suspendsRepaired]
  | KeyCtrlP =>
    simp only [inputCapture]
    repeat' split
    all_goals simp [suspendsRepaired, suspendsRepaired_powerSwitch]
  | KeyCtrlR =>
    simp only [inputCapture]
    repeat' split
    all_goals simp [suspendsRepaired, hs, hs2]
  | KeyCtrlS =>
    simp only [inputCapture]
    repeat' split
    all_goals simp [suspendsRepaired, hs]
  | other c => simp [inputCapture, suspendsRepaired]

/-! ## The list searched by Find -/

theorem inputCapture_v (w : World) (dcName : String) (s : Session) (cur : TreeNode)
    (k : Key) : (inputCapture w dcName s cur k).state.v = s.v := by
  cases k <;> simp only [inputCapture] <;> (repeat' split) <;> rfl

theorem runCallbacks_events (P : Event → Prop)
    (hP : ∀ a h, P (.suspend (.deployOnVM a h))) (l : List TreeNode) :
    ∀ tr : List Event, (∀ e ∈ tr, P e) → ∀ t,
      (runCallbacks l tr = .done t ∨ runCallbacks l tr = .panicked t) → ∀ e ∈ t, P e := by
  induction l with
  | nil =>
    intro tr htr t ht
    simp [runCallbacks] at ht
    subst ht
    exact htr
  | cons n ns ih =>
    intro tr htr t ht
    simp only [runCallbacks] at ht
    unfold deployCallback at ht
    cases hr : n.GetReference with
    | none =>
      rw [hr] at ht
      exact ih tr htr t (by simpa using ht)
    | some r =>
      rw [hr] at ht
      by_cases hm : r.objectType = "MAC"
      · cases hv : r.vm with
        | none =>
          simp [hm, hv] at ht
          subst ht
          exact htr
        | some vm =>
          simp only [hm, hv, if_true] at ht
          refine ih _ ?_ t ht
          intro e he
          rcases List.mem_append.mp he with he | he
          · exact htr e he
          · have : e = .suspend (.deployOnVM r.objectDetails vm.name) := by simpa using he
            subst this
            exact hP _ _
      · simp only [hm, if_false] at ht
        exact ih tr htr t ht

theorem powerSwitch_events (w : World) (vm : VirtualMachine) (a : PowerAction)
    (d : Dialog) : Event.suspend d ∉ powerSwitch w vm a := by
  have h0 : ∀ e : Option Err, Event.suspend d ∉ reportError e := by
    intro e
    cases e <;> simp [reportError]
  cases a <;> simp [powerSwitch, h0]

theorem inputCapture_SearchUI (w : World) (dcName : String) (s : Session)
    (cur : TreeNode) (k : Key) (arg : List VirtualMachine)
    (h : Event.suspend (.SearchUI arg) ∈ (inputCapture w dcName s cur k).trace) :
    arg = s.v := by
  have hs : ∀ e : Option Err, Event.suspend (.SearchUI arg) ∉ reportErrorSuspended e := by
    intro e
    cases e <;> simp [reportErrorSuspended]
  cases k with
  | KeyCtrlF => simpa [inputCapture] using h
  | KeyCtrlI =>
    exfalso
    have hP := runCallbacks_events (fun e => e ≠ .suspend (.SearchUI arg))
      (by intro a b; simp) (walked cur) [] (by simp)
    simp only [inputCapture, Walk_deploy] at h
    cases hw : runCallbacks (walked cur) [] with
    | done tr =>
      rw [hw] at h
      simp only [List.mem_append, List.mem_singleton] at h
      rcases h with h | h
      · exact hP tr (Or.inl hw) _ h rfl
      · simp at h
    | panicked tr =>
      rw [hw] at h
      exact hP tr (Or.inr hw) _ h rfl
    | outOfFuel =>
      rw [hw] at h
      simp at h
  | KeyCtrlD =>
    exfalso
    revert h
    simp only [inputCapture]
    repeat' split
    all_goals simp
  | KeyCtrlN =>
    exfalso
    revert h
    simp only [inputCapture]
    repeat' split
    all_goals simp
  | KeyCtrlP =>
    exfalso
    revert h
    simp only [inputCapture]
    repeat' split
    all_goals simp [powerSwitch_events]
  | KeyCtrlR =>
    exfalso
    revert h
    simp only [inputCapture]
    repeat' split
    all_goals simp [hs]
  | KeyCtrlS =>
    exfalso
    revert h
    simp only [inputCapture]
    repeat' split
    all_goals simp [hs]
  | other c => simp [inputCapture] at h

theorem runSession_SearchUI (dcName : String) (steps : List Step) :
    ∀ (s : Session) (arg : List VirtualMachine),
      Event.suspend (.SearchUI arg) ∈ (runSession dcName s steps).2 → arg = s.v := by
  induction steps with
  | nil => intro s arg h; simp [runSession] at h
  | cons st rest ih =>
    intro s arg h
    have hv := inputCapture_v st.world dcName s st.cur st.key
    have hone := inputCapture_SearchUI st.world dcName s st.cur st.key arg
    simp only [runSession] at h
    cases hret : (inputCapture st.world dcName s st.cur st.key).ret with
    | panicked => rw [hret] at h; exact hone h
    | outOfFuel => rw [hret] at h; exact hone h
    | handled =>
      rw [hret] at h
      rcases List.mem_append.mp h with h | h
      · exact hone h
      · rw [← hv]; exact ih _ arg h
    | unhandled =>
      rw [hret] at h
      rcases List.mem_append.mp h with h | h
      · exact hone h
      · rw [← hv]; exact ih _ arg h

/-- C10: in a session started by `MainUI` on the list v, whatever keys are
dispatched afterwards (refreshes with any re-fetched inventory included),
every call of the search dialog receives v. -/
theorem C10_find_searches_initial_list (buildTree : List VirtualMachine → TreeNode)
    (searchString dcName : String) (v : List VirtualMachine) (s0 : Session)
    (steps : List Step) (arg : List VirtualMachine)
    (hstart : MainUI buildTree searchString (some v) = .ok s0)
    (hcall : Event.suspend (.SearchUI arg) ∈ (runSession dcName s0 steps).2) :
    arg = v := by
  have hs0 : s0.v = v := by
    simp only [MainUI] at hstart
    cases hstart
    rfl
  rw [← hs0]
  exact runSession_SearchUI dcName steps s0 arg hcall

/-- A session started on [golden]: a refresh that re-fetches [web01, db01]
rebuilds the tree from the new list, and the Find that follows still hands
[golden] to the search dialog. -/
theorem C10_find_searches_initial_list_witness :
    (runSession "dc1" ⟨"", buildTree [golden], [golden]⟩
        [⟨calm, buildTree [golden], .KeyCtrlR⟩, ⟨calm, buildTree [golden], .KeyCtrlF⟩]).2
      = [.remote (.VMInventory "dc1" true), .suspend (.SearchUI [golden]), .uiBugFix]
    ∧ ∀ arg, Event.suspend (.SearchUI arg)
        ∈ (runSession "dc1" ⟨"", buildTree [golden], [golden]⟩
            [⟨calm, buildTree [golden], .KeyCtrlR⟩,
             ⟨calm, buildTree [golden], .KeyCtrlF⟩]).2 → arg = [golden] :=
  ⟨by decide, fun arg h =>
    C10_find_searches_initial_list buildTree "" "dc1" [golden]
      ⟨"", buildTree [golden], [golden]⟩
      [⟨calm, buildTree [golden], .KeyCtrlR⟩, ⟨calm, buildTree [golden], .KeyCtrlF⟩]
      arg rfl h⟩

end Vctui
